import Mathlib

/-!
# Verification of the response-matrix construction core of `ompy` (Sept 2019 archive)

Shallow embedding of `src/response.py`: the histogram rebinner
`rebin_by_arrays`, the Compton kinematics function `E_compton`, and the
fragments of the row-construction routine `response` that the source
actually contains (bracket search, region-A interpolation, the
theta = 0 Compton-edge computation, and the row assembly as far as the
incomplete source carries it).

Floating-point arithmetic is embedded as exact arithmetic: rationals for
the purely algebraic parts, reals where the trigonometric function
`cos` is involved.
-/

set_option maxHeartbeats 1000000

namespace Ompy

/-- A linear energy grid of bin centers: `origin + i*step` for
`i = 0, ..., count-1`.  `rebin_by_arrays` receives grids as arrays of
bin-center energies and immediately reduces them to exactly this data
(`a0 = E[0]`, `a1 = E[1] - E[0]`, `N = len(E)`); the spec calls the same
triple an EnergyGrid. -/
structure EnergyGrid where
  origin : ℚ
  step : ℚ
  count : ℕ

/-- Bin-edge energies, as built by the source
(`np.linspace(a0 - a1/2, a0 - a1/2 + a1*N, N+1)`): in exact arithmetic
the i-th edge is `a0 - a1/2 + a1*i`. -/
def EnergyGrid.edge (g : EnergyGrid) (i : ℕ) : ℚ :=
  g.origin - g.step / 2 + g.step * i

/-- `rebin_by_arrays` from `src/response.py` lines 12-55: output channel `i`
accumulates, over all input channels `j`,
`counts_in[j] * max(0, overlap) / a1_in` where
`overlap = min(Eout_edges[i+1], Ein_edges[j+1]) - max(Eout_edges[i], Ein_edges[j])`.
Counts are a function of channel index; channels `0, ..., count-1` are the
meaningful ones. -/
def rebin_by_arrays (counts_in : ℕ → ℚ) (gin gout : EnergyGrid) : ℕ → ℚ :=
  fun i =>
    ∑ j ∈ Finset.range gin.count,
      counts_in j *
        max 0 (min (gout.edge (i + 1)) (gin.edge (j + 1)) -
               max (gout.edge i) (gin.edge j)) / gin.step

/-- The entry arithmetic of `rebin_by_arrays` on the raw center arrays the
source actually receives (`src/response.py` lines 32-35): `a0 = E[0]` and
`a1 = E[1] - E[0]` for both arrays, so an array with fewer than two
centers raises IndexError at line 33 or 35 before any rebinning happens;
that failure path is modelled as `none`.  On arrays of two or more
centers this reduces to `rebin_by_arrays` on the derived grid triples. -/
def rebin_from_centers (counts_in : List ℚ) (Ein Eout : List ℚ) :
    Option (ℕ → ℚ) :=
  match Ein, Eout with
  | e0 :: e1 :: _, f0 :: f1 :: _ =>
      some (rebin_by_arrays (fun j => counts_in.getD j 0)
        ⟨e0, e1 - e0, Ein.length⟩ ⟨f0, f1 - f0, Eout.length⟩)
  | _, _ => none

lemma edge_succ (g : EnergyGrid) (i : ℕ) :
    g.edge (i + 1) = g.edge i + g.step := by
  simp only [EnergyGrid.edge]
  push_cast
  ring

lemma edge_mono (g : EnergyGrid) (h : 0 ≤ g.step) : Monotone g.edge := by
  refine monotone_nat_of_le_succ ?_
  intro i
  rw [edge_succ]
  linarith

/-- The concrete grid `{origin=1, step=1, count=3}` from the spec's identity
rebin example. -/
def gridA : EnergyGrid := ⟨1, 1, 3⟩

/-- The concrete counts `[10, 20, 30]` from the spec's identity rebin
example. -/
def countsA : ℕ → ℚ := fun j => if j = 0 then 10 else if j = 1 then 20 else 30

/-- C5: identity rebin.  For every grid with positive step (the spec's
EnergyGrid invariant) and every counts vector, rebinning a histogram onto
its own grid returns it unchanged on every channel. -/
theorem rebin_identity (c : ℕ → ℚ) (g : EnergyGrid) (hs : 0 < g.step)
    (i : ℕ) (hi : i < g.count) :
    rebin_by_arrays c g g i = c i := by
  unfold rebin_by_arrays
  rw [Finset.sum_eq_single i]
  · have h1 : min (g.edge (i + 1)) (g.edge (i + 1)) - max (g.edge i) (g.edge i)
        = g.step := by
      rw [min_self, max_self, edge_succ]; ring
    rw [h1, max_eq_right hs.le, mul_div_assoc, div_self hs.ne', mul_one]
  · intro j _ hj
    rcases lt_or_gt_of_ne hj with hlt | hgt
    · have hle : g.edge (j + 1) ≤ g.edge i := edge_mono g hs.le hlt
      have : min (g.edge (i + 1)) (g.edge (j + 1)) - max (g.edge i) (g.edge j)
          ≤ 0 := by
        have := min_le_right (g.edge (i + 1)) (g.edge (j + 1))
        have := le_max_left (g.edge i) (g.edge j)
        linarith
      rw [max_eq_left this, mul_zero, zero_div]
    · have hle : g.edge (i + 1) ≤ g.edge j := edge_mono g hs.le hgt
      have : min (g.edge (i + 1)) (g.edge (j + 1)) - max (g.edge i) (g.edge j)
          ≤ 0 := by
        have := min_le_left (g.edge (i + 1)) (g.edge (j + 1))
        have := le_max_right (g.edge i) (g.edge j)
        linarith
      rw [max_eq_left this, mul_zero, zero_div]
  · intro hmem
    exact absurd (Finset.mem_range.mpr hi) hmem

/-- Witness for C5 at the spec's concrete example:
`grid = {origin=1, step=1, count=3}`, `counts = [10,20,30]`, identity rebin
returns `[10,20,30]`. -/
theorem rebin_identity_witness :
    rebin_by_arrays countsA gridA gridA 0 = 10 ∧
    rebin_by_arrays countsA gridA gridA 1 = 20 ∧
    rebin_by_arrays countsA gridA gridA 2 = 30 := by
  refine ⟨?_, ?_, ?_⟩
  · have h := rebin_identity countsA gridA (by norm_num [gridA]) 0
      (by norm_num [gridA])
    simpa [countsA] using h
  · have h := rebin_identity countsA gridA (by norm_num [gridA]) 1
      (by norm_num [gridA])
    simpa [countsA] using h
  · have h := rebin_identity countsA gridA (by norm_num [gridA]) 2
      (by norm_num [gridA])
    simpa [countsA] using h

lemma overlap_split (u v w a b : ℚ) (huv : u ≤ v) (hvw : v ≤ w) :
    max 0 (min v b - max u a) + max 0 (min w b - max v a)
      = max 0 (min w b - max u a) := by
  simp only [max_def, min_def]
  split_ifs <;> linarith

lemma sum_overlap_edges (O : ℕ → ℚ) (hm : ∀ i, O i ≤ O (i + 1)) (a b : ℚ) :
    ∀ N, ∑ i ∈ Finset.range N, max 0 (min (O (i + 1)) b - max (O i) a)
      = max 0 (min (O N) b - max (O 0) a) := by
  intro N
  induction N with
  | zero =>
      have h1 : min (O 0) b - max (O 0) a ≤ 0 := by
        have := min_le_left (O 0) b
        have := le_max_left (O 0) a
        linarith
      simp [max_eq_left h1]
  | succ N ih =>
      rw [Finset.sum_range_succ, ih]
      exact overlap_split (O 0) (O N) (O (N + 1))
        a b (monotone_nat_of_le_succ hm (Nat.zero_le N)) (hm N)

lemma sum_overlap_in_bin (gin gout : EnergyGrid) (hin : 0 < gin.step)
    (hout : 0 ≤ gout.step) (j : ℕ) (hj : j < gin.count)
    (hlo : gout.edge 0 ≤ gin.edge 0)
    (hhi : gin.edge gin.count ≤ gout.edge gout.count) :
    ∑ i ∈ Finset.range gout.count,
        max 0 (min (gout.edge (i + 1)) (gin.edge (j + 1)) -
               max (gout.edge i) (gin.edge j))
      = gin.step := by
  rw [sum_overlap_edges gout.edge
    (fun i => by rw [edge_succ]; linarith) (gin.edge j) (gin.edge (j + 1))]
  have hmin : gin.edge (j + 1) ≤ gout.edge gout.count := by
    have := edge_mono gin hin.le (Nat.succ_le_of_lt hj)
    linarith
  have hmax : gout.edge 0 ≤ gin.edge j := by
    have := edge_mono gin hin.le (Nat.zero_le j)
    linarith
  rw [min_eq_right hmin, max_eq_right hmax, edge_succ]
  have : gin.edge j + gin.step - gin.edge j = gin.step := by ring
  rw [this, max_eq_right hin.le]

/-- C2 (amended): count conservation.  When the input grid's covered energy
range is contained in the output grid's covered range (edges compared), the
total count is conserved exactly:
`sum(rebin(counts, gin, gout)) = sum(counts)`.  Steps are positive per the
spec's EnergyGrid invariant. -/
theorem rebin_conserves_sum (c : ℕ → ℚ) (gin gout : EnergyGrid)
    (hin : 0 < gin.step) (hout : 0 < gout.step)
    (hlo : gout.edge 0 ≤ gin.edge 0)
    (hhi : gin.edge gin.count ≤ gout.edge gout.count) :
    ∑ i ∈ Finset.range gout.count, rebin_by_arrays c gin gout i
      = ∑ j ∈ Finset.range gin.count, c j := by
  unfold rebin_by_arrays
  rw [Finset.sum_comm]
  refine Finset.sum_congr rfl ?_
  intro j hj
  have hsum : ∑ i ∈ Finset.range gout.count,
      c j * max 0 (min (gout.edge (i + 1)) (gin.edge (j + 1)) -
                   max (gout.edge i) (gin.edge j)) / gin.step
      = c j / gin.step * ∑ i ∈ Finset.range gout.count,
          max 0 (min (gout.edge (i + 1)) (gin.edge (j + 1)) -
                 max (gout.edge i) (gin.edge j)) := by
    rw [Finset.mul_sum]
    refine Finset.sum_congr rfl ?_
    intro i _
    ring
  rw [hsum, sum_overlap_in_bin gin gout hin hout.le j
    (Finset.mem_range.mp hj) hlo hhi, div_mul_cancel₀ _ hin.ne']

/-- Witness for C2 (amended): `gin = {origin=0, step=1, count=2}` with
counts `[3, 5]`, `gout = {origin=0, step=2, count=2}` (output range
[-1, 3] contains input range [-0.5, 1.5]); the rebinned total is 8. -/
theorem rebin_conserves_sum_witness :
    ∑ i ∈ Finset.range 2,
        rebin_by_arrays (fun j => if j = 0 then 3 else 5) ⟨0, 1, 2⟩ ⟨0, 2, 2⟩ i
      = 8 := by
  have h := rebin_conserves_sum (fun j => if j = 0 then 3 else 5)
    ⟨0, 1, 2⟩ ⟨0, 2, 2⟩ (by norm_num) (by norm_num)
    (by norm_num [EnergyGrid.edge]) (by norm_num [EnergyGrid.edge])
  rw [h]
  norm_num [Finset.sum_range_succ]

/-- Counterexample to C2 as stated: the claim requires only that the
OUTPUT grid's covered range be a subset of the INPUT grid's.  Take
`gin = {origin=0, step=1, count=3}` (range [-0.5, 2.5], centers
[0, 1, 2]) with counts `[1, 1, 1]` and `gout = {origin=0, step=1, count=2}`
(range [-0.5, 1.5], centers [0, 1], a subset — and a two-bin grid, so the
source's array interface is well defined on it): the rebinned total is 2,
not 3 — the input bin outside the output range is dropped. -/
theorem rebin_subset_claim_false :
    ((⟨0, 1, 3⟩ : EnergyGrid).edge 0 ≤ (⟨0, 1, 2⟩ : EnergyGrid).edge 0 ∧
     (⟨0, 1, 2⟩ : EnergyGrid).edge 2 ≤ (⟨0, 1, 3⟩ : EnergyGrid).edge 3) ∧
    ¬ (∑ i ∈ Finset.range 2,
          rebin_by_arrays (fun _ => 1) ⟨0, 1, 3⟩ ⟨0, 1, 2⟩ i
        = ∑ j ∈ Finset.range 3, (fun _ => (1 : ℚ)) j) := by
  constructor
  · constructor <;> norm_num [EnergyGrid.edge]
  · norm_num [rebin_by_arrays, EnergyGrid.edge, Finset.sum_range_succ]

/-- C9 fails on the code: the example's output grid
`{origin=1.0, step=1, count=1}` has a single bin, so its center array is
the one-element `[1.0]`, and the source raises IndexError at line 35
(`a1_out = Eout_array[1] - Eout_array[0]`) before rebinning anything — it
never returns `[10.0]`.  The half-overlap arithmetic is otherwise as the
claim says: with the output step 1 supplied directly from the grid triple
(the spec's EnergyGrid carries origin, step and count, with count allowed
to be 1), the single output channel receives `10*0.5/1 + 10*0.5/1 = 10`. -/
theorem rebin_half_overlap_crashes :
    rebin_from_centers [10, 10] [1/2, 3/2] [1] = none ∧
    rebin_by_arrays (fun _ => 10) ⟨1/2, 1, 2⟩ ⟨1, 1, 1⟩ 0 = 10 := by
  constructor
  · rfl
  · norm_num [rebin_by_arrays, EnergyGrid.edge, Finset.sum_range_succ]

/-- `E_compton` from `src/response.py` lines 58-73: the energy of the
electron scattered at angle `theta` by a gamma ray of energy `Eg` (keV),
`np.where(Eg > 0.1, Eg*Eg/511*(1-cos theta) / (1 + Eg/511*(1-cos theta)), Eg)`.
Floating-point arithmetic embedded as real arithmetic. -/
noncomputable def E_compton (Eg theta : ℝ) : ℝ :=
  if 0.1 < Eg then
    Eg * Eg / 511 * (1 - Real.cos theta) / (1 + Eg / 511 * (1 - Real.cos theta))
  else Eg

lemma E_compton_denom_pos (Eg : ℝ) (hEg : 0.1 < Eg) (t : ℝ) :
    0 < 1 + Eg / 511 * (1 - Real.cos t) := by
  have hc : Real.cos t ≤ 1 := Real.cos_le_one t
  have h1 : (0 : ℝ) ≤ 1 - Real.cos t := by linarith
  have h2 : (0 : ℝ) ≤ Eg / 511 := by positivity
  nlinarith

/-- C6: boundary behavior of the Compton kinematics.  At zero scattering
angle the formula branch gives zero electron energy for every `Eg > 0.1`,
and for `Eg ≤ 0.1` the function returns `Eg` unchanged at every angle. -/
theorem E_compton_boundary :
    (∀ Eg : ℝ, 0.1 < Eg → E_compton Eg 0 = 0) ∧
    (∀ Eg theta : ℝ, Eg ≤ 0.1 → E_compton Eg theta = Eg) := by
  constructor
  · intro Eg hEg
    simp [E_compton, hEg, Real.cos_zero]
  · intro Eg theta hEg
    have : ¬ (0.1 : ℝ) < Eg := not_lt.mpr hEg
    simp [E_compton, this]

/-- Witness for C6: `E_compton 1 0 = 0` (formula branch) and
`E_compton 0.05 7 = 0.05` (low-energy branch). -/
theorem E_compton_boundary_witness :
    E_compton 1 0 = 0 ∧ E_compton 0.05 7 = 0.05 :=
  ⟨E_compton_boundary.1 1 (by norm_num),
   E_compton_boundary.2 0.05 7 (by norm_num)⟩

/-- C7: for fixed `Eg > 0.1`, the scattered-electron energy is
non-decreasing in `theta` over `[0, π]`. -/
theorem E_compton_monotone (Eg t1 t2 : ℝ) (hEg : 0.1 < Eg)
    (h0 : 0 ≤ t1) (h12 : t1 ≤ t2) (hpi : t2 ≤ Real.pi) :
    E_compton Eg t1 ≤ E_compton Eg t2 := by
  have hc : Real.cos t2 ≤ Real.cos t1 :=
    Real.cos_le_cos_of_nonneg_of_le_pi h0 hpi h12
  have hc1 : Real.cos t1 ≤ 1 := Real.cos_le_one t1
  have hu1 : (0 : ℝ) ≤ 1 - Real.cos t1 := by linarith
  have hu2 : 1 - Real.cos t1 ≤ 1 - Real.cos t2 := by linarith
  have hd1 := E_compton_denom_pos Eg hEg t1
  have hd2 := E_compton_denom_pos Eg hEg t2
  have hA : (0 : ℝ) ≤ Eg * Eg / 511 := by positivity
  have hB : (0 : ℝ) ≤ Eg / 511 := by positivity
  simp only [E_compton, if_pos hEg]
  rw [div_le_div_iff hd1 hd2]
  nlinarith [mul_nonneg hA (mul_nonneg hB (mul_nonneg hu1 (hu1.trans hu2)))]

/-- Witness for C7 at `Eg = 1`, `t1 = 0`, `t2 = π`. -/
theorem E_compton_monotone_witness :
    E_compton 1 0 ≤ E_compton 1 Real.pi :=
  E_compton_monotone 1 0 Real.pi (by norm_num) le_rfl Real.pi_nonneg le_rfl

/-- C10: for every `Eg > 0.1` and `theta` in `[0, π]`, the electron recoil
energy lies in `[0, Eg)`; in particular the derived backscatter energy
`Eg - E_compton Eg theta` is positive. -/
theorem E_compton_range (Eg t : ℝ) (hEg : 0.1 < Eg)
    (h0 : 0 ≤ t) (hpi : t ≤ Real.pi) :
    0 ≤ E_compton Eg t ∧ E_compton Eg t < Eg := by
  have hc1 : Real.cos t ≤ 1 := Real.cos_le_one t
  have hu : (0 : ℝ) ≤ 1 - Real.cos t := by linarith
  have hd := E_compton_denom_pos Eg hEg t
  have hA : (0 : ℝ) ≤ Eg * Eg / 511 := by positivity
  constructor
  · simp only [E_compton, if_pos hEg]
    positivity
  · simp only [E_compton, if_pos hEg]
    rw [div_lt_iff hd]
    nlinarith

/-- Witness for C10 at `Eg = 1`, `theta = π`. -/
theorem E_compton_range_witness :
    0 ≤ E_compton 1 Real.pi ∧ E_compton 1 Real.pi < 1 :=
  E_compton_range 1 Real.pi (by norm_num) Real.pi_nonneg le_rfl

/-- The Compton-edge energy as the source computes it
(`src/response.py` line 231): `Ece = E_compton(E_j, theta=0)`. -/
noncomputable def Ece_code (E : ℝ) : ℝ := E_compton E 0

/-- The backscatter energy as the source computes it
(`src/response.py` line 232): `Ebsc = E_j - Ece`. -/
noncomputable def Ebsc_code (E : ℝ) : ℝ := E - Ece_code E

/-- C4 fails on the code: at `E = 1000` keV the source's Compton-edge
value `E_compton(E, theta=0)` is 0, while the claimed value
`E_compton(E, π)` (the maximum-transfer angle) is nonzero; consequently
the source's backscatter energy is `E` itself rather than
`E - E_compton(E, π)`. -/
theorem compton_edge_uses_theta_zero :
    Ece_code 1000 = 0 ∧ Ece_code 1000 ≠ E_compton 1000 Real.pi ∧
    Ebsc_code 1000 = 1000 := by
  have h0 : Ece_code 1000 = 0 := by
    rw [Ece_code, E_compton, if_pos (by norm_num : (0.1:ℝ) < 1000),
      Real.cos_zero]
    norm_num
  have hpi : E_compton 1000 Real.pi = 2000000 / 2511 := by
    rw [E_compton, if_pos (by norm_num : (0.1:ℝ) < 1000), Real.cos_pi]
    norm_num
  refine ⟨h0, ?_, ?_⟩
  · rw [h0, hpi]; norm_num
  · rw [Ebsc_code, h0]; ring

/-- Region-A channel value as the source writes it (`src/response.py`
line 243): `R[j,i] = cmp_low[i] + (cmp_low[i]-cmp_high[i])*(E_j - Eg_low)/(Eg_high-Eg_low)`.
The source references `Eg_low`, `Eg_high` without defining them; they are
taken as the bracket reference energies `Eg_array[i_g_low]`,
`Eg_array[i_g_high]` printed on line 197. -/
def regionA_code (cmp_low cmp_high : ℕ → ℚ) (E_j Eg_low Eg_high : ℚ)
    (i : ℕ) : ℚ :=
  cmp_low i + (cmp_low i - cmp_high i) * (E_j - Eg_low) / (Eg_high - Eg_low)

/-- Modelled from the spec: Region-A linear interpolation as the spec
states it,
`row[i] = P_low[i] + (P_high[i]-P_low[i])*(E_j - E_low)/(E_high - E_low)`.
To be compared with `regionA_code`. -/
def regionA_spec (cmp_low cmp_high : ℕ → ℚ) (E_j Eg_low Eg_high : ℚ)
    (i : ℕ) : ℚ :=
  cmp_low i + (cmp_high i - cmp_low i) * (E_j - Eg_low) / (Eg_high - Eg_low)

/-- C3 fails on the code: the source flips the sign of the interpolation
slope (`cmp_low - cmp_high` instead of `cmp_high - cmp_low`).  At
`E_j = Eg_high = 1500`, `Eg_low = 1000`, with normalized channel values
`P_low[i] = 0` and `P_high[i] = 1`, the source produces `-1` (a negative
probability) where interpolation must give `P_high[i] = 1`. -/
theorem regionA_sign_flipped :
    regionA_code (fun _ => 0) (fun _ => 1) 1500 1000 1500 0 = -1 ∧
    regionA_spec (fun _ => 0) (fun _ => 1) 1500 1000 1500 0 = 1 := by
  constructor <;> norm_num [regionA_code, regionA_spec]

/-- `i_g_low` of the bracket search (`src/response.py` lines 179-183):
`np.where(Eg_array <= E_j)[0][-1]`, the largest calibration index with
reference energy at most `E_j`; on IndexError (no such index) the
initialization 0 is kept. -/
def i_g_low (N : ℕ) (Eg : ℕ → ℚ) (E : ℚ) : ℕ :=
  (((List.range N).filter (fun j => decide (Eg j ≤ E))).getLast?).getD 0

/-- `i_g_high` of the bracket search (`src/response.py` lines 184-188):
`np.where(Eg_array >= E_j)[0][0]`, the smallest calibration index with
reference energy at least `E_j`; on IndexError the initialization `N_Eg`
(one past the last valid index) is kept. -/
def i_g_high (N : ℕ) (Eg : ℕ → ℚ) (E : ℚ) : ℕ :=
  (((List.range N).filter (fun j => decide (E ≤ Eg j))).head?).getD N

/-- The full bracket search (`src/response.py` lines 179-193): after the
two index searches, if the indices coincide the lower one is decremented
when possible, otherwise the upper one is incremented. -/
def bracket_search (N : ℕ) (Eg : ℕ → ℚ) (E : ℚ) : ℕ × ℕ :=
  let il := i_g_low N Eg E
  let ih := i_g_high N Eg E
  if il = ih then
    if 0 < il then (il - 1, ih) else (il, ih + 1)
  else (il, ih)

/-- Calibration reference energies `{1000, 1500}` used to refute the
top-end clamping of C8. -/
def EgPair : ℕ → ℚ := fun j => if j = 0 then 1000 else 1500

/-- C8 fails on the code at the top end: for an output energy above every
reference energy (here 2000 keV against calibration energies 1000 and
1500), the search leaves `i_g_high` at its initialization `N_Eg = 2`,
which is out of range — there is no symmetric top-end clamp, and the
subsequent `compton_matrix[i_g_high]` access fails. -/
theorem bracket_high_out_of_range :
    bracket_search 2 EgPair 2000 = (1, 2) ∧
    ¬ (bracket_search 2 EgPair 2000).2 < 2 := by
  constructor <;> decide

/-- Truncation toward zero, the semantics of python `int()` applied to a
float. -/
def py_int (q : ℚ) : ℤ := if q < 0 then ⌈q⌉ else ⌊q⌋

/-- `E_compton` with the value of `cos theta` supplied as an exact
rational; the row-construction code only evaluates it at `theta = 0`,
where `cos theta = 1` exactly. -/
def E_compton_rat (Eg c : ℚ) : ℚ :=
  if 0.1 < Eg then Eg * Eg / 511 * (1 - c) / (1 + Eg / 511 * (1 - c))
  else Eg

/-- One row of the response matrix as far as the incomplete source
computes it, for output grid `{a0, a1}` and already-rebinned, normalized
bracket spectra `cmp_low`, `cmp_high` (`src/response.py` lines 203-223).
Lines 230-235: `Ece = E_compton(E_j, theta=0)`, `Ebsc = E_j - Ece`,
`i_bsc_out = int((Ebsc - a0)/a1 + 0.5)`.  The Region-A loop (lines
242-243) writes channels `[0, i_bsc_out)`; the fan-method loop (lines
246-257) computes interpolation indices but never assigns to the row; no
later code touches the row (the peak components are never added and the
function exits at line 269 via `sys.exit(0)`).  The matrix `R` is never
initialized in the source; it is modelled zero-initialized, as the
plotting code at line 277 expects. -/
def row_code (cmp_low cmp_high : ℕ → ℚ) (E_j Eg_low Eg_high a0 a1 : ℚ)
    (i : ℕ) : ℚ :=
  let Ece := E_compton_rat E_j 1
  let Ebsc := E_j - Ece
  let ibsc := py_int ((Ebsc - a0) / a1 + 1/2)
  if (i : ℤ) < ibsc then regionA_code cmp_low cmp_high E_j Eg_low Eg_high i
  else 0

/-- Normalized bracket spectrum used to refute C1: four continuum
channels of 1/8 each (total 1/2), the remaining weight 1/2 sitting in
the full-energy peak component, which the source never adds to the row. -/
def cmpFlat : ℕ → ℚ := fun i => if i < 4 then 1/8 else 0

/-- C1 fails on the code: at output energy 1000 keV on the grid
`{a0=0, a1=500, N=4}` with bracket energies 1000 and 1500 and the
normalized spectra `cmpFlat`, the produced row sums to 1/4, not 1:
the theta = 0 Compton edge empties the fan region and stops Region A at
the channel of `E_j`, the fan loop writes nothing, and the peak
components (here carrying weight 1/2 of each normalized spectrum) are
never added. -/
theorem row_code_sum_not_one :
    ∑ i ∈ Finset.range 4, row_code cmpFlat cmpFlat 1000 1000 1500 0 500 i
      = 1/4 ∧
    ¬ |(1/4 : ℚ) - 1| ≤ 1/1000000 := by
  constructor
  · rw [Finset.sum_range_succ, Finset.sum_range_succ, Finset.sum_range_succ,
      Finset.sum_range_one]
    norm_num [row_code, py_int, E_compton_rat, regionA_code, cmpFlat]
  · have habs : |(1/4 : ℚ) - 1| = 3/4 := by
      rw [abs_of_nonpos (by norm_num : (1/4 : ℚ) - 1 ≤ 0)]
      norm_num
    rw [habs]
    norm_num

end Ompy
